import Mathlib

/-!
# Verification of the syra-login-rs cryptographic core

Shallow embedding of the Rust sources:

* `dkg/src/main.rs` — trusted dealer: generator derivation, Shamir share
  evaluation `f_i = Σ coeffs[j]·i^j` over the BLS12-381 scalar field.
* `src/main.rs` — issuer: self key generation (`generate_issuer_keys`),
  identity-scalar derivation (`s_from_sub`), and the user-key handler
  (`generate_user_key`).
* `src/jwt_proof_verifier.rs` — Groth16 verifier over BN254: modulus
  chunking (`chunk_modulus`), public-input assembly, length check performed
  by ark-groth16's `prepare_inputs`.
* `src/proof.rs` — SnarkJS JSON proof decoding (`proof_from_snarkjs_json`)
  with unchecked projective points.

Machine integers and big integers are modelled as `Nat`; the two scalar
fields and the BN254 base field are modelled as `ZMod p` for the respective
prime order.  Elliptic-curve group elements are kept abstract (type
parameters together with the scalar-multiplication and hash-to-curve
operations the code applies to them); the BN254 base-field coordinates of
proof points are concrete, so curve membership is expressible.  Randomness
(`OsRng` / `test_rng` samples) is passed in as explicit arguments, and
network results (JWKS fetch, proof-verification outcome) appear as
parameters of the functions that consume them.
-/

set_option maxHeartbeats 1000000
set_option maxRecDepth 8000

namespace Syra

/-- Order of the BLS12-381 scalar field (`ark_bls12_381::Fr`), the field of
issuer secrets, shares and identity scalars. -/
def blsR : Nat := 52435875175126190479447740508185965837690552500527637822603658699938581184513

/-- Order of the BN254 scalar field (`ark_bn254::Fr`), the field of Groth16
public inputs in the verifier. -/
def bn254R : Nat := 21888242871839275222246405745257275088548364400416034343698204186575808495617

/-- Order of the BN254 base field (`ark_bn254::Fq`), the coordinate field of
proof points. -/
def bn254Q : Nat := 21888242871839275222246405745257275088696311157297823662689037894645226208583

abbrev Fr := ZMod blsR
abbrev FrBn := ZMod bn254R
abbrev FqBn := ZMod bn254Q

instance : NeZero blsR := ⟨by decide⟩

/-- Fuel-based binary modular exponentiation; a proof device used to certify
the primality of `blsR` (it is not part of the embedded program). -/
def powModFuel : Nat → Nat → Nat → Nat → Nat
  | 0, _, _, m => 1 % m
  | fuel + 1, b, e, m =>
    if e = 0 then 1 % m
    else
      let h := powModFuel fuel (b * b % m) (e / 2) m
      if e % 2 = 1 then h * b % m else h

/-! ## Dealer (dkg/src/main.rs) -/

/-- Share evaluation from the dealer's main loop:
`coeffs.iter().enumerate().fold(Fr::zero(), |acc, (j, c)| acc + c * x.pow(j))`. -/
def evalShare (coeffs : List Fr) (x : Fr) : Fr :=
  coeffs.enum.foldl (fun acc jc => acc + jc.2 * x ^ jc.1) 0

/-- Domain-separation tag `b"syra-generator"` the dealer hashes to derive its
G1 generator (dkg/src/main.rs). -/
def dealerG1TagS : String := "syra-generator"

/-- Domain-separation tag `b"syra-generator-1"` the issuer's self-keygen
hashes to derive its G1 generator (src/main.rs, `generate_issuer_keys`). -/
def issuerG1TagS : String := "syra-generator-1"

/-- Domain-separation tag `b"syra-generator-2"` for the issuer's G2
generator. -/
def issuerG2TagS : String := "syra-generator-2"

/-- The dealer's G1 generator:
`affine_group_elem_from_try_and_incr::<G1Affine, Blake2b512>(b"syra-generator")`,
with the hash-to-curve derivation kept abstract. -/
def dealerGenerator (G : Type) (hashG1 : String → G) : G := hashG1 dealerG1TagS

/-- The issuer's G1 generator from self-keygen:
`affine_group_elem_from_try_and_incr::<G1Affine, Blake2b512>(b"syra-generator-1")`. -/
def issuerSelfG1 (G : Type) (hashG1 : String → G) : G := hashG1 issuerG1TagS

/-! ## Issuer key state (src/main.rs) -/

/-- `KeygenError` from src/main.rs. -/
inductive KeygenError
  | alreadyGenerated
  deriving DecidableEq

/-- `StoredIssuerKeys` from src/main.rs: `{ bp: Bp { g1, g2 }, isk, ivk_hat,
W, W_hat }` (the `Bp` pair is flattened into two fields). -/
structure StoredIssuerKeys (G1 G2 : Type) where
  bp_g1 : G1
  bp_g2 : G2
  isk : Fr
  ivk_hat : G2
  W : G1
  W_hat : G2
  deriving DecidableEq

/-- `IvkBundle` from src/main.rs (public verification bundle). -/
structure IvkBundle (G1 G2 : Type) where
  bp_g1 : G1
  bp_g2 : G2
  ivk_hat : G2
  W : G1
  W_hat : G2
  deriving DecidableEq

/-- `generate_issuer_keys` from src/main.rs.  The curve groups are abstract
type parameters with their hash-to-curve and scalar-multiplication
operations; the three `OsRng` samples `isk`, `r1`, `r2` are explicit
arguments.  The `Mutex<Option<StoredIssuerKeys>>` contents are threaded as
`st`; the function returns the new contents and the handler's result. -/
def generate_issuer_keys (G1 G2 : Type) (hashG1 : String → G1) (hashG2 : String → G2)
    (smul1 : G1 → Fr → G1) (smul2 : G2 → Fr → G2)
    (st : Option (StoredIssuerKeys G1 G2)) (isk r1 r2 : Fr) :
    Option (StoredIssuerKeys G1 G2) × Except KeygenError (IvkBundle G1 G2) :=
  match st with
  | some k => (some k, Except.error KeygenError.alreadyGenerated)
  | none =>
    let g1 := issuerSelfG1 G1 hashG1
    let g2 := hashG2 issuerG2TagS
    let W := smul1 g1 r1
    let W_hat := smul2 g2 r2
    let ivk_hat := smul2 g2 isk
    (some ⟨g1, g2, isk, ivk_hat, W, W_hat⟩, Except.ok ⟨g1, g2, ivk_hat, W, W_hat⟩)

/-- `DkgPointMessage` from src/main.rs (the issuer-side deserialized wire
message; the dealer additionally sends a session id, which the issuer-side
struct does not carry). -/
structure DkgPointMessage where
  A : String
  f_i : String
  Ai_all : List String

/-- Outcome of the receive-share endpoint. -/
inductive RecvOutcome
  | success
  | decodeError
  deriving DecidableEq

/-- Sealed receive-share state: `{A, share, local commitment, commitment
list}`. -/
structure ReceivedShare (G1 : Type) where
  A : G1
  share : Fr
  localCommitment : G1
  commitments : List G1

/-- Modelled from the spec: the `/admin/receive_dkg` handler is absent from
src/ (only its wire struct `DkgPointMessage` and the dealer's POST call to it
appear there), so this definition follows §4.2(a) of the spec: on the first
message decode `A`, the share and the commitment list (decode failure is a
request-level error), recompute the local generator, compute the local
commitment `generator^share`, and seal; a second receipt while sealed is a
no-op returning success without mutation. -/
def receive_share (G1 : Type) (decodeG1 : String → Option G1) (decodeFr : String → Option Fr)
    (hashG1 : String → G1) (smul1 : G1 → Fr → G1)
    (st : Option (ReceivedShare G1)) (msg : DkgPointMessage) :
    Option (ReceivedShare G1) × RecvOutcome :=
  match st with
  | some r => (some r, RecvOutcome.success)
  | none =>
    match decodeG1 msg.A, decodeFr msg.f_i, msg.Ai_all.mapM decodeG1 with
    | some A, some f, some comms =>
      let g := hashG1 dealerG1TagS
      (some ⟨A, f, smul1 g f, comms⟩, RecvOutcome.success)
    | _, _, _ => (none, RecvOutcome.decodeError)

/-! ## Identity scalar and user-key derivation (src/main.rs) -/

/-- The base-256 accumulation inside `s_from_sub`:
`acc = 0; for byte in sub.bytes { acc = acc * 256 + byte }`. -/
def sAccum (bytes : List Nat) : Fr :=
  bytes.foldl (fun acc b => acc * 256 + (b : Fr)) 0

/-- `s_from_sub` from src/main.rs: base-256 accumulation over the subject's
bytes, with a zero result remapped to one. -/
def s_from_sub (bytes : List Nat) : Fr :=
  let acc := sAccum bytes
  if acc = 0 then 1 else acc

/-- `ark_ff::Field::inverse`: `none` exactly at zero, otherwise the field
inverse. -/
def frInverse (x : Fr) : Option Fr :=
  if x = 0 then none else some x⁻¹

/-- Result of the `generate_user_key` handler.  `panicAbort` models the
`.expect(...)` panic (the request aborts instead of producing an HTTP
response); the other constructors are the handler's possible responses. -/
inductive HandlerOutcome (G1 G2 : Type)
  | ok (usk : G1) (usk_hat : G2)
  | badRequest
  | unauthorized
  | panicAbort
  deriving DecidableEq

/-- `generate_user_key` from src/main.rs, after request decoding.  The stored
issuer state is `st`; the awaited result of `verifier.verify` is passed in as
`verifyResult` (`Except.error` models the `Err` case, mapped to 401, and
`Except.ok false` is also mapped to 401); `user_id` is the subject's byte
sequence.  On `ok true` the handler derives `s`, inverts `s + isk` via
`.inverse().expect(...)` — a `None` inverse panics — and otherwise returns
`usk = g1^inv`, `usk_hat = g2^inv`. -/
def generate_user_key (G1 G2 : Type) (smul1 : G1 → Fr → G1) (smul2 : G2 → Fr → G2)
    (st : Option (StoredIssuerKeys G1 G2)) (verifyResult : Except Unit Bool)
    (user_id : List Nat) : HandlerOutcome G1 G2 :=
  match st with
  | none => HandlerOutcome.badRequest
  | some stored =>
    match verifyResult with
    | Except.error _ => HandlerOutcome.unauthorized
    | Except.ok false => HandlerOutcome.unauthorized
    | Except.ok true =>
      let s := s_from_sub user_id
      match frInverse (s + stored.isk) with
      | none => HandlerOutcome.panicAbort
      | some inv => HandlerOutcome.ok (smul1 stored.bp_g1 inv) (smul2 stored.bp_g2 inv)

/-! ## Groth16 verifier (src/jwt_proof_verifier.rs) -/

/-- `CHUNK_BITS` from src/jwt_proof_verifier.rs. -/
def CHUNK_BITS : Nat := 121

/-- `chunk_modulus` from src/jwt_proof_verifier.rs, on the decoded modulus:
`while n > 0 { limbs.push(n & mask); n >>= chunk_bits }` with
`mask = (1 << chunk_bits) - 1`. -/
def chunk_modulus (n : Nat) : List Nat :=
  if h : n = 0 then []
  else (n &&& (2 ^ CHUNK_BITS - 1)) :: chunk_modulus (n >>> CHUNK_BITS)
  termination_by n
  decreasing_by
    rw [Nat.shiftRight_eq_div_pow]
    exact Nat.div_lt_self (Nat.pos_of_ne_zero h) (by norm_num [CHUNK_BITS])

/-- Recomposition of a least-significant-first limb list:
`Σ limb_j · 2^(CHUNK_BITS · j)`, expressed positionally. -/
def limbRecompose : List Nat → Nat
  | [] => 0
  | l :: ls => l + 2 ^ CHUNK_BITS * limbRecompose ls

/-- `biguint_to_fr` from src/jwt_proof_verifier.rs:
`Fr::from_le_bytes_mod_order(&x.to_bytes_le())`, i.e. reduction mod the
BN254 scalar-field order. -/
def biguint_to_fr (x : Nat) : FrBn := (x : FrBn)

/-- The public-input assembly inside `Verifier::verify`:
`vec![sub_fr]`, then `extend` with the limbs mapped through
`biguint_to_fr`, then `push(sub_fr)`. -/
def assemble_public_inputs (subFr : FrBn) (limbs : List Nat) : List FrBn :=
  (([subFr] ++ limbs.map biguint_to_fr) ++ [subFr])

/-- Error outcomes of the verification pipeline distinguished by the model. -/
inductive VerifyError
  | subNotDecimal
  | proofDecodeError
  | malformedKey
  deriving DecidableEq

/-- `Groth16::verify_with_processed_vk`: ark-groth16's `prepare_inputs`
rejects the call with `MalformedVerifyingKey` unless
`public_inputs.len() + 1 == vk.gamma_abc_g1.len()`; the pairing equation
itself is kept abstract as the `pairing` parameter. -/
def groth16_verify (icLen : Nat) (pairing : List FrBn → Bool) (inputs : List FrBn) :
    Except VerifyError Bool :=
  if inputs.length + 1 = icLen then Except.ok (pairing inputs)
  else Except.error VerifyError.malformedKey

/-- Modelled from the spec: the embedded `verification_key.json` (pulled in
with `include_str!`) is absent from src/; per the spec the verifying key's
public-input layout expects 17 modulus limbs plus the subject twice, so the
`IC` array has `1 + 19 = 20` entries. -/
def VK_IC_LEN : Nat := 20

/-- Hex/decimal digit value, as accepted by `BigUint::parse_bytes`. -/
def digitValue (c : Char) : Option Nat :=
  if '0' ≤ c ∧ c ≤ '9' then some (c.toNat - '0'.toNat)
  else if 'a' ≤ c ∧ c ≤ 'f' then some (c.toNat - 'a'.toNat + 10)
  else if 'A' ≤ c ∧ c ≤ 'F' then some (c.toNat - 'A'.toNat + 10)
  else none

/-- `BigUint::parse_bytes(s, radix)`: `None` on an empty string or any
character that is not a digit of the radix. -/
def parseNatRadix (radix : Nat) (s : List Char) : Option Nat :=
  if s.isEmpty then none
  else
    s.foldl
      (fun acc c =>
        match acc, digitValue c with
        | some a, some d => if d < radix then some (a * radix + d) else none
        | _, _ => none)
      (some 0)

/-- The per-call body of `Verifier::verify` after the JWKS fetch: `modulus`
is the fetched RSA modulus (already base64url-decoded to an integer), `sub`
the claimed subject string, `proofDecodes` the outcome of
`base64_to_proof`, and `pairing` the abstract pairing check.  Mirrors the
source order: chunk the modulus, parse the subject as decimal, assemble
`[s, limbs.., s]`, decode the proof, then run Groth16 verification. -/
def verify (pairing : List FrBn → Bool) (sub : List Char) (modulus : Nat)
    (proofDecodes : Bool) : Except VerifyError Bool :=
  let limbs := chunk_modulus modulus
  match parseNatRadix 10 sub with
  | none => Except.error VerifyError.subNotDecimal
  | some sb =>
    let publicInputs := assemble_public_inputs (biguint_to_fr sb) limbs
    if proofDecodes then groth16_verify VK_IC_LEN pairing publicInputs
    else Except.error VerifyError.proofDecodeError

/-! ## Proof decoding (src/proof.rs) -/

/-- `str_to_fq` from src/proof.rs: strip an optional `0x`/`0X` prefix,
parse in base 16 or 10, and reduce via `Fq::from_be_bytes_mod_order`. -/
def str_to_fq (s : List Char) : Option FqBn :=
  match s with
  | '0' :: 'x' :: rest => (parseNatRadix 16 rest).map fun m => (m : FqBn)
  | '0' :: 'X' :: rest => (parseNatRadix 16 rest).map fun m => (m : FqBn)
  | _ => (parseNatRadix 10 s).map fun m => (m : FqBn)

/-- `JsProof` from src/proof.rs: `pi_a/pi_c : [String; 3]`,
`pi_b : [[String; 2]; 3]`. -/
structure JsProof where
  pi_a : List Char × List Char × List Char
  pi_b : (List Char × List Char) × (List Char × List Char) × (List Char × List Char)
  pi_c : List Char × List Char × List Char

/-- BN254 quadratic extension element `c0 + c1·u` with `u² = −1`. -/
abbrev Fq2Bn := FqBn × FqBn

/-- Multiplication in `Fq2`. -/
def fq2Mul (a b : Fq2Bn) : Fq2Bn :=
  (a.1 * b.1 - a.2 * b.2, a.1 * b.2 + a.2 * b.1)

/-- Inversion in `Fq2` (via the norm `c0² + c1²`). -/
def fq2Inv (a : Fq2Bn) : Fq2Bn :=
  let t := (a.1 ^ 2 + a.2 ^ 2)⁻¹
  (a.1 * t, -a.2 * t)

/-- ark-ec `Projective::into_affine` for short-Weierstrass G1 (Jacobian
coordinates): `z = 0` is the point at infinity, `z = 1` is returned as-is,
otherwise `(x·z⁻², y·z⁻³)`.  No curve-membership or subgroup check is
performed. -/
def g1ToAffine (x y z : FqBn) : Option (FqBn × FqBn) :=
  if z = 0 then none
  else if z = 1 then some (x, y)
  else
    let zinv := z⁻¹
    some (x * zinv ^ 2, y * zinv ^ 3)

/-- ark-ec `Projective::into_affine` for G2 (coordinates in `Fq2`). -/
def g2ToAffine (x y z : Fq2Bn) : Option (Fq2Bn × Fq2Bn) :=
  if z = ((0 : FqBn), (0 : FqBn)) then none
  else if z = ((1 : FqBn), (0 : FqBn)) then some (x, y)
  else
    let zinv := fq2Inv z
    some (fq2Mul x (fq2Mul zinv zinv), fq2Mul y (fq2Mul zinv (fq2Mul zinv zinv)))

/-- A decoded Groth16 proof `{ a : G1, b : G2, c : G1 }`, with points kept
as raw affine coordinate pairs (`none` = infinity); nothing constrains them
to lie on the curve. -/
structure ProofModel where
  a : Option (FqBn × FqBn)
  b : Option (Fq2Bn × Fq2Bn)
  c : Option (FqBn × FqBn)
  deriving DecidableEq

/-- `proof_from_snarkjs_json` from src/proof.rs: parse the nine/twelve
coordinate strings with `str_to_fq`, build the three group elements with
`new_unchecked` (no validation), and normalize projective to affine. -/
def proof_from_snarkjs_json (p : JsProof) : Option ProofModel := do
  let ax ← str_to_fq p.pi_a.1
  let ay ← str_to_fq p.pi_a.2.1
  let az ← str_to_fq p.pi_a.2.2
  let bx0 ← str_to_fq p.pi_b.1.1
  let bx1 ← str_to_fq p.pi_b.1.2
  let by0 ← str_to_fq p.pi_b.2.1.1
  let by1 ← str_to_fq p.pi_b.2.1.2
  let bz0 ← str_to_fq p.pi_b.2.2.1
  let bz1 ← str_to_fq p.pi_b.2.2.2
  let cx ← str_to_fq p.pi_c.1
  let cy ← str_to_fq p.pi_c.2.1
  let cz ← str_to_fq p.pi_c.2.2
  some ⟨g1ToAffine ax ay az, g2ToAffine (bx0, bx1) (by0, by1) (bz0, bz1), g1ToAffine cx cy cz⟩

/-- Membership on the BN254 G1 curve `y² = x³ + 3` (the point at infinity
counts as on the curve). -/
def onCurveG1 (p : Option (FqBn × FqBn)) : Bool :=
  match p with
  | none => true
  | some (x, y) => decide (y ^ 2 = x ^ 3 + 3)

/-- A syntactically well-formed SnarkJS proof whose `pi_a` (and `pi_c`)
coordinates `(0, 1, 1)` do not satisfy the curve equation. -/
def offCurveJsProof : JsProof :=
  ⟨(['0'], ['1'], ['1']),
   ((['0'], ['0']), (['0'], ['0']), (['0'], ['0'])),
   (['0'], ['1'], ['1'])⟩

end Syra


/-! ## Field-order primality and helper lemmas -/

namespace Syra

theorem powModFuel_eq (fuel : Nat) :
    ∀ b e m, e < 2 ^ fuel → powModFuel fuel b e m = b ^ e % m := by
  induction fuel with
  | zero =>
    intro b e m he
    have : e = 0 := by omega
    subst this
    simp [powModFuel]
  | succ fuel ih =>
    intro b e m he
    by_cases h0 : e = 0
    · subst h0; simp [powModFuel]
    · have he2 : e / 2 < 2 ^ fuel := by
        rw [pow_succ] at he
        omega
      have hrec : powModFuel fuel (b * b % m) (e / 2) m = (b * b) ^ (e / 2) % m := by
        rw [ih (b * b % m) (e / 2) m he2, ← Nat.pow_mod]
      have hsq : (b * b) ^ (e / 2) = b ^ (2 * (e / 2)) := by
        rw [two_mul, pow_add, ← mul_pow]
      rcases Nat.mod_two_eq_zero_or_one e with hpar | hpar
      · have he' : 2 * (e / 2) = e := by omega
        simp only [powModFuel, if_neg h0, hpar]
        norm_num
        rw [hrec, hsq, he']
      · have he' : 2 * (e / 2) + 1 = e := by omega
        simp only [powModFuel, if_neg h0, hpar, if_pos rfl]
        rw [hrec, hsq]
        have := (Nat.mod_modEq (b ^ (2 * (e / 2))) m).mul_right b
        rw [Nat.ModEq] at this
        rw [this, ← pow_succ, he']
        simp

theorem blsR_sub_one_fac : blsR - 1 =
    2 ^ 32 * 3 * 11 * 19 * 10177 * 125527 * 859267 * 906349 ^ 2 * 2508409 * 2529403 *
      52437899 * 254760293 ^ 2 := by decide

theorem zmod_pow_eq_one_iff (fuel a k p : Nat) (hp : 1 < p) (hk : k < 2 ^ fuel) :
    ((a : ℕ) : ZMod p) ^ k = 1 ↔ powModFuel fuel a k p = 1 := by
  have h1 : (1 : ZMod p) = ((1 : ℕ) : ZMod p) := by norm_cast
  rw [← Nat.cast_pow, h1, ZMod.natCast_eq_natCast_iff',
    powModFuel_eq fuel a k p hk, Nat.mod_eq_of_lt hp]

theorem zmod7_pow_eq_one_iff (k : Nat) (hk : k < 2 ^ 256) :
    (7 : ZMod blsR) ^ k = 1 ↔ powModFuel 256 7 k blsR = 1 := by
  have h7 : (7 : ZMod blsR) = ((7 : ℕ) : ZMod blsR) := by norm_cast
  rw [h7, zmod_pow_eq_one_iff 256 7 k blsR (by decide) hk]

theorem prime_609743 : Nat.Prime 609743 := by norm_num

theorem prime_2653753 : Nat.Prime 2653753 := by norm_num

theorem prime_52437899 : Nat.Prime 52437899 := by
  have h2 : (2 : ZMod 52437899) = ((2 : ℕ) : ZMod 52437899) := by norm_cast
  apply lucas_primality 52437899 2
  · rw [h2, zmod_pow_eq_one_iff 32 2 _ 52437899 (by norm_num) (by norm_num)]
    decide
  · intro q hq hdvd
    have hfac : 52437899 - 1 = 2 * 43 * 609743 := by norm_num
    rw [hfac] at hdvd
    have pq2 : Nat.Prime 2 := by norm_num
    have pq43 : Nat.Prime 43 := by norm_num
    rcases (Nat.Prime.dvd_mul hq).mp hdvd with h | h
    · rcases (Nat.Prime.dvd_mul hq).mp h with h | h
      · obtain rfl := (Nat.prime_dvd_prime_iff_eq hq pq2).mp h
        rw [Ne, h2, zmod_pow_eq_one_iff 32 2 _ 52437899 (by norm_num) (by norm_num)]
        decide
      · obtain rfl := (Nat.prime_dvd_prime_iff_eq hq pq43).mp h
        rw [Ne, h2, zmod_pow_eq_one_iff 32 2 _ 52437899 (by norm_num) (by norm_num)]
        decide
    · obtain rfl := (Nat.prime_dvd_prime_iff_eq hq prime_609743).mp h
      rw [Ne, h2, zmod_pow_eq_one_iff 32 2 _ 52437899 (by norm_num) (by norm_num)]
      decide

theorem prime_63690073 : Nat.Prime 63690073 := by
  have h7 : (7 : ZMod 63690073) = ((7 : ℕ) : ZMod 63690073) := by norm_cast
  apply lucas_primality 63690073 7
  · rw [h7, zmod_pow_eq_one_iff 32 7 _ 63690073 (by norm_num) (by norm_num)]
    decide
  · intro q hq hdvd
    have hfac : 63690073 - 1 = 2 ^ 3 * 3 * 2653753 := by norm_num
    rw [hfac] at hdvd
    have pq2 : Nat.Prime 2 := by norm_num
    have pq3 : Nat.Prime 3 := by norm_num
    rcases (Nat.Prime.dvd_mul hq).mp hdvd with h | h
    · rcases (Nat.Prime.dvd_mul hq).mp h with h | h
      · obtain rfl := (Nat.prime_dvd_prime_iff_eq hq pq2).mp (hq.dvd_of_dvd_pow h)
        rw [Ne, h7, zmod_pow_eq_one_iff 32 7 _ 63690073 (by norm_num) (by norm_num)]
        decide
      · obtain rfl := (Nat.prime_dvd_prime_iff_eq hq pq3).mp h
        rw [Ne, h7, zmod_pow_eq_one_iff 32 7 _ 63690073 (by norm_num) (by norm_num)]
        decide
    · obtain rfl := (Nat.prime_dvd_prime_iff_eq hq prime_2653753).mp h
      rw [Ne, h7, zmod_pow_eq_one_iff 32 7 _ 63690073 (by norm_num) (by norm_num)]
      decide

theorem prime_254760293 : Nat.Prime 254760293 := by
  have h2 : (2 : ZMod 254760293) = ((2 : ℕ) : ZMod 254760293) := by norm_cast
  apply lucas_primality 254760293 2
  · rw [h2, zmod_pow_eq_one_iff 32 2 _ 254760293 (by norm_num) (by norm_num)]
    decide
  · intro q hq hdvd
    have hfac : 254760293 - 1 = 2 ^ 2 * 63690073 := by norm_num
    rw [hfac] at hdvd
    have pq2 : Nat.Prime 2 := by norm_num
    rcases (Nat.Prime.dvd_mul hq).mp hdvd with h | h
    · obtain rfl := (Nat.prime_dvd_prime_iff_eq hq pq2).mp (hq.dvd_of_dvd_pow h)
      rw [Ne, h2, zmod_pow_eq_one_iff 32 2 _ 254760293 (by norm_num) (by norm_num)]
      decide
    · obtain rfl := (Nat.prime_dvd_prime_iff_eq hq prime_63690073).mp h
      rw [Ne, h2, zmod_pow_eq_one_iff 32 2 _ 254760293 (by norm_num) (by norm_num)]
      decide

theorem prime_dvd_blsR_sub_one {q : Nat} (hq : q.Prime) (hdvd : q ∣ blsR - 1) :
    q = 2 ∨ q = 3 ∨ q = 11 ∨ q = 19 ∨ q = 10177 ∨ q = 125527 ∨ q = 859267 ∨ q = 906349 ∨
      q = 2508409 ∨ q = 2529403 ∨ q = 52437899 ∨ q = 254760293 := by
  rw [blsR_sub_one_fac] at hdvd
  have p2 : Nat.Prime 2 := by norm_num
  have p3 : Nat.Prime 3 := by norm_num
  have p11 : Nat.Prime 11 := by norm_num
  have p19 : Nat.Prime 19 := by norm_num
  have p10177 : Nat.Prime 10177 := by norm_num
  have p125527 : Nat.Prime 125527 := by norm_num
  have p859267 : Nat.Prime 859267 := by norm_num
  have p906349 : Nat.Prime 906349 := by norm_num
  have p2508409 : Nat.Prime 2508409 := by norm_num
  have p2529403 : Nat.Prime 2529403 := by norm_num
  have p52437899 : Nat.Prime 52437899 := prime_52437899
  have p254760293 : Nat.Prime 254760293 := prime_254760293
  rcases (Nat.Prime.dvd_mul hq).mp hdvd with h | h
  rotate_left
  · exact Or.inr <| Or.inr <| Or.inr <| Or.inr <| Or.inr <| Or.inr <| Or.inr <| Or.inr <|
      Or.inr <| Or.inr <| Or.inr <|
      (Nat.prime_dvd_prime_iff_eq hq p254760293).mp (hq.dvd_of_dvd_pow h)
  rcases (Nat.Prime.dvd_mul hq).mp h with h | h
  rotate_left
  · exact Or.inr <| Or.inr <| Or.inr <| Or.inr <| Or.inr <| Or.inr <| Or.inr <| Or.inr <|
      Or.inr <| Or.inr <| Or.inl <| (Nat.prime_dvd_prime_iff_eq hq p52437899).mp h
  rcases (Nat.Prime.dvd_mul hq).mp h with h | h
  rotate_left
  · exact Or.inr <| Or.inr <| Or.inr <| Or.inr <| Or.inr <| Or.inr <| Or.inr <| Or.inr <|
      Or.inr <| Or.inl <| (Nat.prime_dvd_prime_iff_eq hq p2529403).mp h
  rcases (Nat.Prime.dvd_mul hq).mp h with h | h
  rotate_left
  · exact Or.inr <| Or.inr <| Or.inr <| Or.inr <| Or.inr <| Or.inr <| Or.inr <| Or.inr <|
      Or.inl <| (Nat.prime_dvd_prime_iff_eq hq p2508409).mp h
  rcases (Nat.Prime.dvd_mul hq).mp h with h | h
  rotate_left
  · exact Or.inr <| Or.inr <| Or.inr <| Or.inr <| Or.inr <| Or.inr <| Or.inr <| Or.inl <|
      (Nat.prime_dvd_prime_iff_eq hq p906349).mp (hq.dvd_of_dvd_pow h)
  rcases (Nat.Prime.dvd_mul hq).mp h with h | h
  rotate_left
  · exact Or.inr <| Or.inr <| Or.inr <| Or.inr <| Or.inr <| Or.inr <| Or.inl <|
      (Nat.prime_dvd_prime_iff_eq hq p859267).mp h
  rcases (Nat.Prime.dvd_mul hq).mp h with h | h
  rotate_left
  · exact Or.inr <| Or.inr <| Or.inr <| Or.inr <| Or.inr <| Or.inl <|
      (Nat.prime_dvd_prime_iff_eq hq p125527).mp h
  rcases (Nat.Prime.dvd_mul hq).mp h with h | h
  rotate_left
  · exact Or.inr <| Or.inr <| Or.inr <| Or.inr <| Or.inl <|
      (Nat.prime_dvd_prime_iff_eq hq p10177).mp h
  rcases (Nat.Prime.dvd_mul hq).mp h with h | h
  rotate_left
  · exact Or.inr <| Or.inr <| Or.inr <| Or.inl <| (Nat.prime_dvd_prime_iff_eq hq p19).mp h
  rcases (Nat.Prime.dvd_mul hq).mp h with h | h
  rotate_left
  · exact Or.inr <| Or.inr <| Or.inl <| (Nat.prime_dvd_prime_iff_eq hq p11).mp h
  rcases (Nat.Prime.dvd_mul hq).mp h with h | h
  rotate_left
  · exact Or.inr <| Or.inl <| (Nat.prime_dvd_prime_iff_eq hq p3).mp h
  · exact Or.inl <| (Nat.prime_dvd_prime_iff_eq hq p2).mp (hq.dvd_of_dvd_pow h)

/-- The BLS12-381 scalar field order is prime (Lucas certificate with primitive root 7). -/
theorem blsR_prime : Nat.Prime blsR := by
  apply lucas_primality blsR 7
  · exact (zmod7_pow_eq_one_iff (blsR - 1) (by decide)).mpr (by decide)
  · intro q hq hdvd
    rcases prime_dvd_blsR_sub_one hq hdvd with rfl | rfl | rfl | rfl | rfl | rfl | rfl | rfl |
      rfl | rfl | rfl | rfl <;>
      · rw [Ne, zmod7_pow_eq_one_iff _ (by decide)]
        decide

instance : Fact (Nat.Prime blsR) := ⟨blsR_prime⟩

theorem evalShare_foldl (x : Fr) :
    ∀ (cs : List Fr) (k : ℕ) (a : Fr),
      (cs.enumFrom k).foldl (fun acc jc => acc + jc.2 * x ^ jc.1) a
        = a + ∑ j ∈ Finset.range cs.length, cs.getD j 0 * x ^ (k + j) := by
  intro cs
  induction cs with
  | nil => intro k a; simp
  | cons c cs ih =>
    intro k a
    simp only [List.enumFrom_cons, List.foldl_cons, List.length_cons]
    rw [ih (k + 1) (a + c * x ^ k), Finset.sum_range_succ']
    simp only [List.getD_cons_succ, List.getD_cons_zero]
    have hsum : ∑ j ∈ Finset.range cs.length, cs.getD j 0 * x ^ (k + 1 + j)
        = ∑ j ∈ Finset.range cs.length, cs.getD j 0 * x ^ (k + (j + 1)) := by
      refine Finset.sum_congr rfl fun j _ => ?_
      congr 2
      omega
    rw [hsum]
    ring

theorem evalShare_eq_sum (coeffs : List Fr) (x : Fr) :
    evalShare coeffs x = ∑ j ∈ Finset.range coeffs.length, coeffs.getD j 0 * x ^ j := by
  rw [evalShare, List.enum, evalShare_foldl x coeffs 0 0, zero_add]
  simp

theorem sharePoly_eval (coeffs : List Fr) (x : Fr) :
    (∑ j ∈ Finset.range coeffs.length,
        Polynomial.C (coeffs.getD j 0) * Polynomial.X ^ j).eval x = evalShare coeffs x := by
  rw [evalShare_eq_sum, Polynomial.eval_finset_sum]
  simp

theorem sharePoly_degree_lt (coeffs : List Fr) :
    (∑ j ∈ Finset.range coeffs.length,
        Polynomial.C (coeffs.getD j 0) * Polynomial.X ^ j).degree
      < (coeffs.length : WithBot ℕ) := by
  apply lt_of_le_of_lt (Polynomial.degree_sum_le _ _)
  rw [Finset.sup_lt_iff (WithBot.bot_lt_coe _)]
  intro j hj
  apply lt_of_le_of_lt (Polynomial.degree_C_mul_X_pow_le _ _)
  exact_mod_cast Finset.mem_range.mp hj

theorem evalShare_zero (alpha : Fr) (rest : List Fr) :
    evalShare (alpha :: rest) 0 = alpha := by
  rw [evalShare_eq_sum, Finset.sum_eq_single 0]
  · simp
  · intro j _ hj0
    simp [zero_pow hj0]
  · intro h
    exact absurd (Finset.mem_range.mpr (Nat.succ_pos _)) h

/-- Claim C9: the dealer's share values `f(i) = Σ coeffs[j]·i^j` (constant
term `alpha`, `t = rest.length + 1` coefficients) are evaluations of a
degree-(t−1) polynomial with constant term the secret, so
Lagrange-interpolating any `t` of the `n` shares at `x = 0` recovers the
dealt secret exactly (for any party count `n` below the field order). -/
theorem dealer_shares_lagrange (alpha : Fr) (rest : List Fr) (n : ℕ) (S : Finset ℕ)
    (htn : rest.length + 1 ≤ n) (hn : n < blsR)
    (hS : S ⊆ Finset.Icc 1 n) (hcard : S.card = rest.length + 1) :
    (Lagrange.interpolate S (fun i : ℕ => (i : Fr))
        (fun i : ℕ => evalShare (alpha :: rest) (i : Fr))).eval 0 = alpha := by
  have hinj : Set.InjOn (fun i : ℕ => (i : Fr)) S := by
    intro i hi j hj hij
    have hi' : i < blsR := lt_of_le_of_lt (Finset.mem_Icc.mp (hS hi)).2 hn
    have hj' : j < blsR := lt_of_le_of_lt (Finset.mem_Icc.mp (hS hj)).2 hn
    have hv := congrArg ZMod.val hij
    simpa [ZMod.val_cast_of_lt hi', ZMod.val_cast_of_lt hj'] using hv
  have hdeg : (∑ j ∈ Finset.range (alpha :: rest).length,
      Polynomial.C ((alpha :: rest).getD j 0) * Polynomial.X ^ j).degree
        < (S.card : WithBot ℕ) := by
    rw [hcard]
    simpa using sharePoly_degree_lt (alpha :: rest)
  rw [← Lagrange.eq_interpolate_of_eval_eq (fun i : ℕ => evalShare (alpha :: rest) (i : Fr))
    hinj hdeg (fun i _ => sharePoly_eval _ _), sharePoly_eval]
  exact evalShare_zero alpha rest

end Syra

/-! ## Claim theorems (issuer and dealer side) -/

namespace Syra

theorem dealer_shares_lagrange_witness :
    (Lagrange.interpolate ({1, 2} : Finset ℕ) (fun i : ℕ => (i : Fr))
        (fun i : ℕ => evalShare ((2 : Fr) :: [(3 : Fr)]) (i : Fr))).eval 0 = 2 :=
  dealer_shares_lagrange 2 [3] 2 {1, 2} (by decide) (by decide) (by decide) (by decide)

/-- Claim C5 counterexample: it is not the case that the dealer and the
issuer derive their G1 generators from the identical domain-separation tag
via the same derivation — instantiating the derivation with the identity
function exhibits the two distinct tags `"syra-generator"` and
`"syra-generator-1"`. -/
theorem generator_tag_identical_cex :
    ¬ ∀ (G : Type) (hashG1 : String → G), dealerGenerator G hashG1 = issuerSelfG1 G hashG1 := by
  intro hall
  have h := hall String id
  rw [dealerGenerator, issuerSelfG1] at h
  exact absurd h (by decide)

/-- Claim C5 (amended): the dealer derives its G1 generator from the tag
`"syra-generator"` while the issuer's self-keygen uses `"syra-generator-1"`;
the tags differ, so under any injective hash-to-curve derivation the two
generators are distinct group elements. -/
theorem generator_tags_differ (G : Type) (hashG1 : String → G)
    (hinj : Function.Injective hashG1) :
    dealerGenerator G hashG1 ≠ issuerSelfG1 G hashG1 := by
  intro heq
  have h : dealerG1TagS = issuerG1TagS := hinj heq
  exact absurd h (by decide)

theorem generator_tags_differ_witness :
    dealerGenerator String id ≠ issuerSelfG1 String id :=
  generator_tags_differ String id Function.injective_id

/-- Claim C6: self-keygen is exactly-once — the first call (on empty state)
seals a state, and a second call on any sealed state fails with the explicit
`AlreadyGenerated` error and leaves the stored `{bp, isk, ivk_hat, W, W_hat}`
exactly as they were. -/
theorem generate_issuer_keys_exactly_once (G1 G2 : Type) (hashG1 : String → G1)
    (hashG2 : String → G2) (smul1 : G1 → Fr → G1) (smul2 : G2 → Fr → G2)
    (k : StoredIssuerKeys G1 G2) (isk r1 r2 isk' r1' r2' : Fr) :
    (generate_issuer_keys G1 G2 hashG1 hashG2 smul1 smul2 none isk r1 r2).1.isSome = true ∧
    generate_issuer_keys G1 G2 hashG1 hashG2 smul1 smul2 (some k) isk' r1' r2'
      = (some k, Except.error KeygenError.alreadyGenerated) :=
  ⟨rfl, rfl⟩

/-- Claim C2: receive-share is idempotent — once the issuer state is sealed
with a first record, any further message (identical or different) is a no-op
that returns success and leaves the stored `{A, share, local commitment,
commitment list}` unchanged. -/
theorem receive_share_idempotent (G1 : Type) (decodeG1 : String → Option G1)
    (decodeFr : String → Option Fr) (hashG1 : String → G1) (smul1 : G1 → Fr → G1)
    (r : ReceivedShare G1) (msg : DkgPointMessage) :
    receive_share G1 decodeG1 decodeFr hashG1 smul1 (some r) msg
      = (some r, RecvOutcome.success) :=
  rfl

/-- Claim C7: the identity-scalar derivation accumulates base-256 over the
subject's bytes; a zero accumulation is remapped to one, any other value is
returned as-is, and the output is never zero. -/
theorem s_from_sub_never_zero (bytes : List Nat) :
    s_from_sub bytes ≠ 0 ∧ (sAccum bytes = 0 → s_from_sub bytes = 1) ∧
      (sAccum bytes ≠ 0 → s_from_sub bytes = sAccum bytes) := by
  unfold s_from_sub
  by_cases h : sAccum bytes = 0 <;> simp [h]

theorem s_from_sub_never_zero_witness : s_from_sub [] = 1 :=
  (s_from_sub_never_zero []).2.1 rfl

/-- Claim C1 (code-bug evaluation): with the issuer sealed at
`isk = −1` and a verified request whose subject byte sequence is `[1]`
(so `s = 1` and `s + isk = 0`), the handler's `.expect` on the failed field
inversion aborts (panics) instead of producing the explicit unauthorized
outcome its own documentation promises. -/
theorem generate_user_key_inversion_panic :
    generate_user_key Unit Unit (fun _ _ => ()) (fun _ _ => ())
        (some ⟨(), (), -1, (), (), ()⟩) (Except.ok true) [1]
      = HandlerOutcome.panicAbort ∧
    generate_user_key Unit Unit (fun _ _ => ()) (fun _ _ => ())
        (some ⟨(), (), -1, (), (), ()⟩) (Except.ok true) [1]
      ≠ HandlerOutcome.unauthorized := by
  constructor <;> decide

end Syra

/-! ## Claim theorems (verifier side) -/

namespace Syra

/-- Claim C10: the SnarkJS JSON decode path performs no on-curve validation —
the well-formed proof description with `pi_a = (0, 1, 1)` decodes
successfully to a proof value whose `a` component `(0, 1)` is not a point of
the BN254 curve. -/
theorem snarkjs_decoder_accepts_off_curve :
    proof_from_snarkjs_json offCurveJsProof
        = some ⟨some (0, 1), none, some (0, 1)⟩ ∧
    onCurveG1 (some ((0 : FqBn), (1 : FqBn))) = false := by
  constructor <;> decide

/-- Claim C8: `chunk_modulus` round-trips — for every modulus `n` the
least-significant-first limb list recomposes to `n` via
`Σ limb_j · 2^(121·j)`, and every limb is strictly below `2^121`. -/
theorem chunk_modulus_roundtrip (n : ℕ) :
    limbRecompose (chunk_modulus n) = n ∧ ∀ l ∈ chunk_modulus n, l < 2 ^ CHUNK_BITS := by
  induction n using Nat.strong_induction_on with
  | _ n ih =>
    rw [chunk_modulus]
    by_cases h : n = 0
    · subst h
      simp [limbRecompose]
    · simp only [dif_neg h]
      have hlt : n >>> CHUNK_BITS < n := by
        rw [Nat.shiftRight_eq_div_pow]
        exact Nat.div_lt_self (Nat.pos_of_ne_zero h) (by norm_num [CHUNK_BITS])
      obtain ⟨ih1, ih2⟩ := ih _ hlt
      refine ⟨?_, ?_⟩
      · rw [limbRecompose, ih1, Nat.and_pow_two_sub_one_eq_mod, Nat.shiftRight_eq_div_pow]
        exact Nat.mod_add_div n (2 ^ CHUNK_BITS)
      · intro l hl
        rcases List.mem_cons.mp hl with rfl | hl'
        · rw [Nat.and_pow_two_sub_one_eq_mod]
          exact Nat.mod_lt _ (by norm_num [CHUNK_BITS])
        · exact ih2 l hl'

theorem chunk_modulus_roundtrip_witness :
    limbRecompose (chunk_modulus 1) = 1 ∧ (1 ∈ chunk_modulus 1 → 1 < 2 ^ CHUNK_BITS) :=
  ⟨(chunk_modulus_roundtrip 1).1, fun h => (chunk_modulus_roundtrip 1).2 1 h⟩

/-- Claim C3: whenever the limb count of the fetched modulus differs from the
17 limbs the verifying key's public-input layout expects, the verify
operation returns an error or `false`, never a successful verification —
regardless of the subject, the proof, or the pairing outcome. -/
theorem verify_limb_count_mismatch_fails (pairing : List FrBn → Bool) (sub : List Char)
    (modulus : Nat) (proofDecodes : Bool)
    (h : (chunk_modulus modulus).length ≠ 17) :
    verify pairing sub modulus proofDecodes ≠ Except.ok true := by
  unfold verify
  cases hp : parseNatRadix 10 sub with
  | none => simp
  | some sb =>
    by_cases hd : proofDecodes <;>
      simp only [hd, if_true, if_false]
    · unfold groth16_verify
      rw [if_neg]
      · simp
      · simp only [assemble_public_inputs, List.length_append, List.length_map,
          List.length_singleton, VK_IC_LEN]
        omega
    · simp

theorem verify_limb_count_mismatch_fails_witness :
    verify (fun _ => true) ['1'] 0 true ≠ Except.ok true :=
  verify_limb_count_mismatch_fails (fun _ => true) ['1'] 0 true
    (by rw [chunk_modulus]; simp)

/-- Claim C4: the assembled Groth16 public-input vector is exactly
`[s, limb₀, …, limb₁₆, s]` — length 19, the subject scalar at index 0, limb
`j` (least-significant first) at index `j + 1`, and the subject scalar again
at index 18. -/
theorem assemble_public_inputs_order (s : FrBn) (limbs : List Nat)
    (h : limbs.length = 17) :
    (assemble_public_inputs s limbs).length = 19 ∧
    (assemble_public_inputs s limbs)[0]? = some s ∧
    (∀ j, j < 17 → (assemble_public_inputs s limbs)[j + 1]?
        = (limbs[j]?).map biguint_to_fr) ∧
    (assemble_public_inputs s limbs)[18]? = some s := by
  unfold assemble_public_inputs
  refine ⟨by simp [h], by simp, ?_, ?_⟩
  · intro j hj
    rw [List.singleton_append, List.cons_append, List.getElem?_cons_succ,
      List.getElem?_append_left (by simp [h]; omega), List.getElem?_map]
  · rw [List.singleton_append, List.cons_append, List.getElem?_cons_succ,
      List.getElem?_append_right (by simp [h])]
    simp [h]

theorem assemble_public_inputs_order_witness :
    (assemble_public_inputs 0 (List.replicate 17 0)).length = 19 ∧
    (assemble_public_inputs 0 (List.replicate 17 0))[0]? = some 0 ∧
    (∀ j, j < 17 → (assemble_public_inputs 0 (List.replicate 17 0))[j + 1]?
        = ((List.replicate 17 0)[j]?).map biguint_to_fr) ∧
    (assemble_public_inputs 0 (List.replicate 17 0))[18]? = some 0 :=
  assemble_public_inputs_order 0 (List.replicate 17 0) (by simp)

end Syra
